import Mathlib

/-!
Verification of the RiverFlow realtime server core against its source.

The development shallowly embeds the buffered broadcast pipeline of
`src/buffer.js` (the ioredis-backed `Buffer` class) and the realtime socket
handlers of `src/realtime/socket.js` (`initRealtimeServer`).  JavaScript
strings are modelled as `List Char`, JavaScript `Map` objects as
insertion-ordered association lists, timestamps (`Date.now()`) as `Nat`,
and fallible external calls (Redis commands, backend HTTP fetches, JWT
verification) as explicitly injected results or fault flags.
-/

namespace RiverFlow

/-- JavaScript strings, modelled as lists of characters. -/
abbrev Str := List Char

/-! ## Association-list model of JavaScript `Map`

A JS `Map` preserves insertion order; `set` on an existing key keeps its
position, `delete` removes the single entry with that key. -/

/-- `Map.get`: first (unique) entry with the given key. -/
def mapGet [DecidableEq κ] : List (κ × β) → κ → Option β
  | [], _ => none
  | e :: rest, k => if e.1 = k then some e.2 else mapGet rest k

/-- `Map.set`: replace in place if the key is present, else append. -/
def mapSet [DecidableEq κ] : List (κ × β) → κ → β → List (κ × β)
  | [], k, v => [(k, v)]
  | e :: rest, k, v => if e.1 = k then (k, v) :: rest else e :: mapSet rest k v

/-- `Map.delete`: drop the entry with the given key.  A JS `Map` never holds
two entries with the same key, so on reachable states removing every matching
entry coincides with removing the single one. -/
def mapDelete [DecidableEq κ] : List (κ × β) → κ → List (κ × β)
  | [], _ => []
  | e :: rest, k => if e.1 = k then mapDelete rest k else e :: mapDelete rest k

theorem mapGet_mapSet [DecidableEq κ] (m : List (κ × β)) (k k' : κ) (v : β) :
    mapGet (mapSet m k v) k' = if k' = k then some v else mapGet m k' := by
  induction m with
  | nil =>
    by_cases h : k' = k
    · simp [mapSet, mapGet, h]
    · have h2 : ¬ k = k' := fun hk => h hk.symm
      simp [mapSet, mapGet, h, h2]
  | cons e rest ih =>
    by_cases he : e.1 = k
    · by_cases h : k' = k
      · simp [mapSet, mapGet, he, h]
      · have h2 : ¬ k = k' := fun hk => h hk.symm
        have h3 : ¬ e.1 = k' := by rw [he]; exact h2
        simp [mapSet, mapGet, he, h, h2, h3]
    · by_cases h' : e.1 = k'
      · have hk : ¬ k' = k := fun hh => he (h'.trans hh)
        simp [mapSet, mapGet, he, h', hk]
      · simp [mapSet, mapGet, he, h', ih]

theorem mapGet_mapDelete_self [DecidableEq κ] (m : List (κ × β)) (k : κ) :
    mapGet (mapDelete m k) k = none := by
  induction m with
  | nil => simp [mapGet, mapDelete]
  | cons e rest ih =>
    by_cases he : e.1 = k
    · simp [mapDelete, he, ih]
    · simp [mapDelete, mapGet, he, ih]

theorem mapGet_mapDelete_ne [DecidableEq κ] (m : List (κ × β)) (k k' : κ) (h : k' ≠ k) :
    mapGet (mapDelete m k) k' = mapGet m k' := by
  induction m with
  | nil => simp [mapDelete]
  | cons e rest ih =>
    by_cases he : e.1 = k
    · have hkk : ¬ k = k' := fun hh => h hh.symm
      simp [mapDelete, mapGet, he, hkk, ih]
    · by_cases h' : e.1 = k'
      · have hk : ¬ k' = k := fun hh => he (h'.trans hh)
        simp [mapDelete, mapGet, he, h', hk]
      · simp [mapDelete, mapGet, he, h', ih]

/-! ## `Buffer.addToBuffer` — in-memory path (src/buffer.js lines 256–260)

```js
if (this.buffer.length >= this.maxBufferSize) {
  this.buffer.shift();
}
this.buffer.push(item);
```
`shift()` removes the first (oldest) element, `push` appends. -/

/-- One in-memory enqueue: evict the oldest item when at capacity, then append. -/
def addToBuffer (maxBufferSize : Nat) (buf : List ι) (item : ι) : List ι :=
  (if maxBufferSize ≤ buf.length then buf.drop 1 else buf) ++ [item]

theorem foldl_addToBuffer (max : Nat) (hmax : 1 ≤ max) :
    ∀ (xs buf : List ι), buf.length ≤ max →
      xs.foldl (addToBuffer max) buf = (buf ++ xs).drop (buf.length + xs.length - max) := by
  intro xs
  induction xs with
  | nil =>
    intro buf hb
    have h0 : buf.length - max = 0 := Nat.sub_eq_zero_of_le hb
    simp [h0]
  | cons x rest ih =>
    intro buf hb
    by_cases hfull : max ≤ buf.length
    · have hlen : buf.length = max := Nat.le_antisymm hb hfull
      have hbne : 1 ≤ buf.length := le_trans hmax hfull
      have hstep : addToBuffer max buf x = buf.drop 1 ++ [x] := by
        simp [addToBuffer, hfull]
      have hlen' : (buf.drop 1 ++ [x]).length ≤ max := by
        simp [List.length_drop]; omega
      have := ih (buf.drop 1 ++ [x]) hlen'
      rw [List.foldl_cons, hstep, this]
      have hcnt : (buf.drop 1 ++ [x]).length + rest.length - max = rest.length := by
        simp [List.length_drop]; omega
      rw [hcnt]
      have hsplit : buf.drop 1 ++ [x] ++ rest = (buf ++ x :: rest).drop 1 := by
        rw [List.drop_append_of_le_length hbne]
        simp
      rw [hsplit, List.drop_drop]
      congr 1
      simp
      omega
    · have hstep : addToBuffer max buf x = buf ++ [x] := by
        simp [addToBuffer, hfull]
      have hlen' : (buf ++ [x]).length ≤ max := by simp; omega
      have := ih (buf ++ [x]) hlen'
      rw [List.foldl_cons, hstep, this]
      congr 1
      · simp; omega
      · simp

/-- Claim C1: starting from an empty in-memory buffer with capacity
`maxBufferSize ≥ 1`, a sequence of `addToBuffer` enqueues longer than the
capacity leaves exactly the most-recently-enqueued `maxBufferSize` items in
oldest-first order (the last `maxBufferSize` elements of the input sequence),
and the buffer length never exceeds the capacity after any enqueue sequence. -/
theorem claim1_bounded_enqueue (max : Nat) (hmax : 1 ≤ max) (xs : List ι)
    (hx : max < xs.length) :
    xs.foldl (addToBuffer max) [] = xs.drop (xs.length - max) ∧
    (xs.foldl (addToBuffer max) []).length = max ∧
    ∀ ys : List ι, (ys.foldl (addToBuffer max) []).length ≤ max := by
  have hmain := foldl_addToBuffer max hmax xs [] (by simp)
  simp only [List.nil_append, List.length_nil, Nat.zero_add] at hmain
  refine ⟨hmain, ?_, ?_⟩
  · rw [hmain, List.length_drop]
    omega
  · intro ys
    have h := foldl_addToBuffer max hmax ys [] (by simp)
    simp only [List.nil_append, List.length_nil, Nat.zero_add] at h
    rw [h, List.length_drop]
    omega

/-- Claim C1 witness: the spec scenario `maxBufferSize = 3`, enqueue
`A, B, C, D` (here `1, 2, 3, 4`) leaves the buffer holding `[B, C, D]`. -/
theorem claim1_bounded_enqueue_witness :
    (1 ≤ 3 ∧ 3 < ([1, 2, 3, 4] : List Nat).length) ∧
    ([1, 2, 3, 4] : List Nat).foldl (addToBuffer 3) [] =
        ([1, 2, 3, 4] : List Nat).drop (([1, 2, 3, 4] : List Nat).length - 3) ∧
    (([1, 2, 3, 4] : List Nat).foldl (addToBuffer 3) []).length = 3 ∧
    ∀ ys : List Nat, (ys.foldl (addToBuffer 3) []).length ≤ 3 :=
  ⟨⟨by decide, by decide⟩, claim1_bounded_enqueue 3 (by decide) [1, 2, 3, 4] (by decide)⟩

/-! ## `Buffer._flush` — grouping, chunking and emission
(src/buffer.js lines 271–330)

```js
const groups = new Map(); // key: `${room ?? ''}::${event ?? 'bufferedData'}`
for (const { payload, room, event } of toSend) {
  const key = `${room ?? ''}::${event ?? 'bufferedData'}`;
  if (!groups.has(key)) groups.set(key, []);
  groups.get(key).push(payload);
}
for (const [key, items] of groups.entries()) {
  const [room, event] = key.split('::');
  const actualEvent = event || 'bufferedData';
  for (let i = 0; i < items.length; i += this.maxChunkSize) {
    const chunk = items.slice(i, i + this.maxChunkSize);
    if (room) { this.io.to(room).emit(actualEvent, chunk); }
    else { this.io.emit(actualEvent, chunk); }
  }
}
```
Items are built by `addToBuffer` as
`{ payload: data, room, event, timestamp: Date.now() }` with `room = null`
and `event = 'bufferedData'` as defaults (defaults apply only when the
option is absent, not when it is the empty string). -/

/-- A buffered item (src/buffer.js line 242).  `room = none` models the JS
`null`; an explicitly supplied empty string is `some []`. -/
structure Item (α : Type) where
  payload : α
  room : Option Str
  event : Str
  timestamp : Nat
deriving DecidableEq

/-- The composite group key `${room ?? ''}::${event ?? 'bufferedData'}`.
`event` is always a string on items built by `addToBuffer`, so the
`?? 'bufferedData'` on the event side is the identity here. -/
def groupKey (it : Item α) : Str :=
  it.room.getD [] ++ [':', ':'] ++ it.event

/-- The grouping loop of `_flush`: a JS `Map` from key to the payloads with
that key, in arrival order (`groups.get(key).push(payload)`). -/
def groupItems (its : List (Item α)) : List (Str × List α) :=
  its.foldl
    (fun gs it => mapSet gs (groupKey it) ((mapGet gs (groupKey it)).getD [] ++ [it.payload]))
    []

/-- The payload sequence of a group, `[]` when the key is absent. -/
def lookupG (gs : List (Str × List α)) (k : Str) : List α :=
  (mapGet gs k).getD []

/-- Fuel-driven worker for `chunksOf` (structural, so that it evaluates by
kernel reduction). -/
def chunksGo (n : Nat) : Nat → List α → List (List α)
  | _, [] => []
  | 0, _ :: _ => []
  | Nat.succ fuel, l => l.take n :: chunksGo n fuel (l.drop n)

/-- The chunking loop `for (let i = 0; i < items.length; i += maxChunkSize)`:
consecutive slices of at most `n` items.  (`n = 0` would not terminate in the
JS source; the model returns `[]` there, and every claim assumes `1 ≤ n`.) -/
def chunksOf (n : Nat) (l : List α) : List (List α) :=
  if n = 0 then [] else chunksGo n l.length l

/-- `key.split('::')`: split on each non-overlapping occurrence of `::`,
left to right, exactly as JS `String.prototype.split`. -/
def split2 : Str → List Str
  | [] => [[]]
  | ':' :: ':' :: rest => [] :: split2 rest
  | c :: rest =>
    match split2 rest with
    | [] => [[c]]
    | p :: ps => (c :: p) :: ps

/-- One outbound message of the flush cycle.  `target = none` is a global
`io.emit`, `target = some r` is `io.to(r).emit`. -/
structure Emit (α : Type) where
  target : Option Str
  event : Str
  chunk : List α
deriving DecidableEq

/-- The emission loop body for one group: parse the key back with
`key.split('::')`, default a falsy event to `'bufferedData'`, emit one
message per chunk in chunk order, to the room when the parsed room is
truthy and globally otherwise. -/
def emitsForGroup (n : Nat) (k : Str) (ps : List α) : List (Emit α) :=
  let parts := split2 k
  let room := parts.headD []
  let ev := (parts.drop 1).headD []
  let actualEvent := if ev = [] then "bufferedData".toList else ev
  (chunksOf n ps).map fun c =>
    { target := if room = [] then none else some room
      event := actualEvent
      chunk := c }

/-- All messages emitted by one `_flush` cycle for a drained batch, group by
group in the map's insertion order. -/
def flushEmits (n : Nat) (its : List (Item α)) : List (Emit α) :=
  ((groupItems its).map fun g => emitsForGroup n g.1 g.2).flatten

theorem lookupG_groupItems_go (k : Str) :
    ∀ (its : List (Item α)) (gs : List (Str × List α)),
      lookupG (its.foldl
        (fun gs it =>
          mapSet gs (groupKey it) ((mapGet gs (groupKey it)).getD [] ++ [it.payload])) gs) k
        = lookupG gs k ++ (its.filter fun it => groupKey it = k).map Item.payload := by
  intro its
  induction its with
  | nil => intro gs; simp
  | cons it rest ih =>
    intro gs
    rw [List.foldl_cons, ih]
    by_cases hk : groupKey it = k
    · have : lookupG (mapSet gs (groupKey it) ((mapGet gs (groupKey it)).getD [] ++ [it.payload])) k
          = lookupG gs k ++ [it.payload] := by
        simp [lookupG, mapGet_mapSet, hk.symm]
      rw [this]
      simp [List.filter_cons, hk]
    · have hk' : ¬ k = groupKey it := fun hh => hk hh.symm
      have : lookupG (mapSet gs (groupKey it) ((mapGet gs (groupKey it)).getD [] ++ [it.payload])) k
          = lookupG gs k := by
        simp [lookupG, mapGet_mapSet, hk']
      rw [this]
      simp [List.filter_cons, hk]

theorem lookupG_groupItems (its : List (Item α)) (k : Str) :
    lookupG (groupItems its) k = (its.filter fun it => groupKey it = k).map Item.payload := by
  have := lookupG_groupItems_go k its []
  simpa [groupItems, lookupG, mapGet] using this

theorem chunksGo_flatten (n : Nat) (hn : 1 ≤ n) :
    ∀ (fuel : Nat) (l : List α), l.length ≤ fuel → (chunksGo n fuel l).flatten = l := by
  intro fuel
  induction fuel with
  | zero =>
    intro l hl
    match l, hl with
    | [], _ => simp [chunksGo]
  | succ fuel ih =>
    intro l hl
    match l with
    | [] => simp [chunksGo]
    | x :: xs =>
      have hdrop : ((x :: xs).drop n).length ≤ fuel := by
        simp [List.length_drop] at hl ⊢
        omega
      simp only [chunksGo, List.flatten_cons, ih _ hdrop, List.take_append_drop]

theorem chunksOf_flatten (n : Nat) (hn : 1 ≤ n) (l : List α) :
    (chunksOf n l).flatten = l := by
  have hn0 : ¬ n = 0 := by omega
  simp only [chunksOf, hn0, if_neg, ite_false]
  exact chunksGo_flatten n hn l.length l le_rfl

theorem chunksGo_length_le (n : Nat) :
    ∀ (fuel : Nat) (l : List α), ∀ c ∈ chunksGo n fuel l, c.length ≤ n := by
  intro fuel
  induction fuel with
  | zero =>
    intro l c hc
    match l, hc with
    | [], hc => simp [chunksGo] at hc
    | _ :: _, hc => simp [chunksGo] at hc
  | succ fuel ih =>
    intro l c hc
    match l with
    | [] => simp [chunksGo] at hc
    | x :: xs =>
      simp only [chunksGo, List.mem_cons] at hc
      rcases hc with hc | hc
      · subst hc
        simp [List.length_take]
      · exact ih _ c hc

theorem chunksOf_length_le (n : Nat) (l : List α) : ∀ c ∈ chunksOf n l, c.length ≤ n := by
  intro c hc
  by_cases hn0 : n = 0
  · simp [chunksOf, hn0] at hc
  · simp only [chunksOf, hn0, if_neg, ite_false] at hc
    exact chunksGo_length_le n l.length l c hc

/-- Claim C2: for every drained batch and every `maxChunkSize ≥ 1`, the flush
cycle groups items by the composite `${room}::${event}` key preserving arrival
order within each group (each group's payload sequence is exactly the batch's
payloads with that key, in batch order), emits one message per chunk in chunk
order, never emits a chunk with more than `maxChunkSize` payloads, and the
concatenation of the chunks emitted for a group is that group's payload
sequence. -/
theorem claim2_flush_group_chunk (n : Nat) (hn : 1 ≤ n) (its : List (Item α)) :
    (∀ k : Str, lookupG (groupItems its) k
        = (its.filter fun it => groupKey it = k).map Item.payload) ∧
    (∀ e ∈ flushEmits n its, e.chunk.length ≤ n) ∧
    (∀ k : Str, ∀ ps : List α,
        (emitsForGroup n k ps).map Emit.chunk = chunksOf n ps ∧
        ((emitsForGroup n k ps).map Emit.chunk).flatten = ps) := by
  refine ⟨fun k => lookupG_groupItems its k, ?_, ?_⟩
  · intro e he
    simp only [flushEmits, List.mem_flatten, List.mem_map] at he
    obtain ⟨l, ⟨g, hg, hl⟩, hel⟩ := he
    subst hl
    simp only [emitsForGroup, List.mem_map] at hel
    obtain ⟨c, hc, hce⟩ := hel
    have := chunksOf_length_le n g.2 c hc
    rw [← hce]
    exact this
  · intro k ps
    have hmap : (emitsForGroup n k ps).map Emit.chunk = chunksOf n ps := by
      simp [emitsForGroup, List.map_map, Function.comp_def]
    exact ⟨hmap, by rw [hmap]; exact chunksOf_flatten n hn ps⟩

/-- Claim C2 witness: with `maxChunkSize = 2` and a five-item batch for two
(room, event) groups the properties hold at a concrete instance. -/
theorem claim2_flush_group_chunk_witness :
    1 ≤ 2 ∧
    ((∀ k : Str, lookupG (groupItems
        [ ⟨10, some ['r'], ['e'], 0⟩, ⟨11, none, ['e'], 1⟩, ⟨12, some ['r'], ['e'], 2⟩,
          ⟨13, some ['r'], ['e'], 3⟩, ⟨14, some ['r'], ['e'], 4⟩ ]) k
        = (([ ⟨10, some ['r'], ['e'], 0⟩, ⟨11, none, ['e'], 1⟩, ⟨12, some ['r'], ['e'], 2⟩,
          ⟨13, some ['r'], ['e'], 3⟩, ⟨14, some ['r'], ['e'], 4⟩ ] : List (Item Nat)).filter
            fun it => groupKey it = k).map Item.payload) ∧
    (∀ e ∈ flushEmits 2
        [ ⟨10, some ['r'], ['e'], 0⟩, ⟨11, none, ['e'], 1⟩, ⟨12, some ['r'], ['e'], 2⟩,
          ⟨13, some ['r'], ['e'], 3⟩, ⟨14, some ['r'], ['e'], 4⟩ ], e.chunk.length ≤ 2) ∧
    (∀ k : Str, ∀ ps : List Nat,
        (emitsForGroup 2 k ps).map Emit.chunk = chunksOf 2 ps ∧
        ((emitsForGroup 2 k ps).map Emit.chunk).flatten = ps)) :=
  ⟨by decide, claim2_flush_group_chunk 2 (by decide) _⟩

/-- Claim C10: an item enqueued with `opts.room` equal to the empty string is
treated by the flush cycle exactly like an item with no room: the group key
is identical, the whole flush output is identical, and every message for that
group's key is a global emit (`target = none`), because the room component
parsed back from the key is the empty string, which is falsy in JS. -/
theorem claim10_empty_room_global (n : Nat) (pre post : List (Item α)) (p : α)
    (ev : Str) (ts : Nat) :
    groupKey (⟨p, some [], ev, ts⟩ : Item α) = groupKey (⟨p, none, ev, ts⟩ : Item α) ∧
    flushEmits n (pre ++ ⟨p, some [], ev, ts⟩ :: post)
      = flushEmits n (pre ++ ⟨p, none, ev, ts⟩ :: post) ∧
    ∀ ps : List α, ∀ e ∈ emitsForGroup n (groupKey (⟨p, some [], ev, ts⟩ : Item α)) ps,
        e.target = none := by
  refine ⟨rfl, ?_, ?_⟩
  · simp only [flushEmits, groupItems, List.foldl_append, List.foldl_cons]
    rfl
  intro ps e he
  have hkey : groupKey (⟨p, some [], ev, ts⟩ : Item α) = ':' :: ':' :: ev := rfl
  have hsplit : split2 (':' :: ':' :: ev) = [] :: split2 ev := rfl
  simp only [emitsForGroup, hkey, hsplit, List.headD_cons, List.mem_map] at he
  obtain ⟨c, _, hce⟩ := he
  rw [← hce]
  simp

/-! ## Dual-backend buffer state (src/buffer.js lines 240–303)

`addToBuffer`:
```js
if (this.useRedis && this.redisClientInstance) {
  try {
    await this.redisClientInstance.rpush(this.redisBufferKey, JSON.stringify(item));
    await this.redisClientInstance.ltrim(this.redisBufferKey, -this.maxBufferSize, -1);
    return;
  } catch (err) { console.error(...); }
}
// Fallback: in-memory buffer
if (this.buffer.length >= this.maxBufferSize) { this.buffer.shift(); }
this.buffer.push(item);
```
The drain step of `_flush`:
```js
if (this.useRedis && this.redisClientInstance) {
  try {
    const items = await this.redisClientInstance.lrange(this.redisBufferKey, 0, -1);
    if (items.length > 0) {
      await this.redisClientInstance.del(this.redisBufferKey);
      toSend = items.map(... JSON.parse ...).filter(Boolean);
    }
  } catch (err) { toSend = this.buffer; this.buffer = []; }
} else { toSend = this.buffer; this.buffer = []; }
```
The Redis list holds `JSON.stringify(item)` strings written only by
`addToBuffer`, so parsing always succeeds and the `filter(Boolean)` is the
identity; the list is modelled as a list of items.  Each awaited Redis
command can fail independently (a thrown rejection), modelled by a fault
flag per command. -/

/-- The process-wide buffer state: the authoritative-backend flag, whether a
Redis client instance exists, the contents of the Redis list at
`riverflow:realtime:buffer`, and the in-memory array. -/
structure BufState (α : Type) where
  useRedis : Bool
  redisConn : Bool
  redisList : List (Item α)
  memory : List (Item α)
deriving DecidableEq

/-- Fault injection for the two awaited Redis commands of one enqueue. -/
structure EnqFaults where
  rpushFails : Bool
  ltrimFails : Bool
deriving DecidableEq

/-- Fault injection for the two awaited Redis commands of one drain. -/
structure DrainFaults where
  lrangeFails : Bool
  delFails : Bool
deriving DecidableEq

/-- `ltrim(key, -maxBufferSize, -1)`: keep only the last `max` entries
(everything, when there are fewer). -/
def lastN (max : Nat) (l : List (Item α)) : List (Item α) :=
  l.drop (l.length - max)

/-- The in-memory fallback append of `addToBuffer` (drop-oldest `shift`,
then `push`), acting on the whole state. -/
def memPush (max : Nat) (st : BufState α) (it : Item α) : BufState α :=
  { st with memory := addToBuffer max st.memory it }

/-- The `try` block of the Redis enqueue path: `rpush` then `ltrim`.  A
thrown command leaves the state it had already produced in the `error`
side, which the caller's `catch` receives. -/
def redisEnqueuePath (max : Nat) (st : BufState α) (it : Item α) (f : EnqFaults) :
    Except (BufState α) (BufState α) :=
  if f.rpushFails then .error st
  else
    let st1 := { st with redisList := st.redisList ++ [it] }
    if f.ltrimFails then .error st1
    else .ok { st1 with redisList := lastN max st1.redisList }

/-- `Buffer.addToBuffer` with the Redis backend modelled: when the durable
backend is active try the Redis path, and on any caught failure fall
through to the in-memory append.  Total — no exception escapes. -/
def addToBufferR (max : Nat) (st : BufState α) (it : Item α) (f : EnqFaults) : BufState α :=
  if st.useRedis && st.redisConn then
    match redisEnqueuePath max st it f with
    | .ok st' => st'
    | .error stE => memPush max stE it
  else memPush max st it

/-- The drain step of `_flush`: returns the drained batch and the new state.
Total — a caught Redis failure falls back to draining the in-memory array. -/
def drainStep (st : BufState α) (f : DrainFaults) : List (Item α) × BufState α :=
  if st.useRedis && st.redisConn then
    if f.lrangeFails then (st.memory, { st with memory := [] })
    else if st.redisList.isEmpty then ([], st)
    else if f.delFails then (st.memory, { st with memory := [] })
    else (st.redisList, { st with redisList := [] })
  else (st.memory, { st with memory := [] })

/-- The queue of the authoritative backend. -/
def activeQueue (st : BufState α) : List (Item α) :=
  if st.useRedis && st.redisConn then st.redisList else st.memory

/-- How many copies of an item the two paths hold altogether. -/
def itemCount [DecidableEq α] (st : BufState α) (it : Item α) : Nat :=
  st.redisList.count it + st.memory.count it

theorem count_drop_le [DecidableEq α] (l : List (Item α)) (n : Nat) (it : Item α) :
    (l.drop n).count it ≤ l.count it :=
  (List.drop_sublist n l).count_le it

/-- Claim C7: the drain step removes and returns every item of the active
queue, leaving it empty, and a second fault-free drain with no intervening
enqueue returns the empty batch — so no item is returned by two drains and
no item of the active queue is dropped. -/
theorem claim7_drain_idempotent (st : BufState α) (f f2 : DrainFaults)
    (hf : f.lrangeFails = false ∧ f.delFails = false)
    (hf2 : f2.lrangeFails = false ∧ f2.delFails = false) :
    (drainStep st f).1 = activeQueue st ∧
    activeQueue (drainStep st f).2 = [] ∧
    (drainStep (drainStep st f).2 f2).1 = [] := by
  obtain ⟨hl, hd⟩ := hf
  obtain ⟨hl2, hd2⟩ := hf2
  by_cases hr : st.useRedis && st.redisConn
  · by_cases he : st.redisList.isEmpty
    · have : st.redisList = [] := List.isEmpty_iff.mp he
      refine ⟨?_, ?_, ?_⟩ <;> simp [drainStep, activeQueue, hr, hl, hd, hl2, hd2, he, this]
    · refine ⟨?_, ?_, ?_⟩ <;> simp [drainStep, activeQueue, hr, hl, hd, hl2, hd2, he]
  · refine ⟨?_, ?_, ?_⟩ <;> simp [drainStep, activeQueue, hr, hl, hd, hl2, hd2]

/-- Claim C7 witness: a concrete two-item Redis-backed state drains fully
and a second drain is empty. -/
theorem claim7_drain_idempotent_witness :
    ((false, false) = (false, false) ∧
      (drainStep (⟨true, true, [⟨1, none, ['e'], 0⟩, ⟨2, none, ['e'], 1⟩], []⟩ : BufState Nat)
          ⟨false, false⟩).1
        = activeQueue (⟨true, true, [⟨1, none, ['e'], 0⟩, ⟨2, none, ['e'], 1⟩], []⟩ : BufState Nat) ∧
      activeQueue (drainStep (⟨true, true, [⟨1, none, ['e'], 0⟩, ⟨2, none, ['e'], 1⟩], []⟩ : BufState Nat)
          ⟨false, false⟩).2 = [] ∧
      (drainStep (drainStep (⟨true, true, [⟨1, none, ['e'], 0⟩, ⟨2, none, ['e'], 1⟩], []⟩ : BufState Nat)
          ⟨false, false⟩).2 ⟨false, false⟩).1 = []) :=
  ⟨rfl, claim7_drain_idempotent _ ⟨false, false⟩ ⟨false, false⟩ ⟨rfl, rfl⟩ ⟨rfl, rfl⟩⟩

/-- Claim C4 counterexample: the claim asserts that a failure of the external
store during a single enqueue never duplicates the item across the two
paths.  But `rpush` and `ltrim` are two separately awaited commands inside
one `try`: if `rpush` succeeds and `ltrim` then fails, the item is already
in the Redis list when the `catch` falls through to the in-memory append,
so one enqueue stores the item in both paths.  Concretely: a fresh item
enqueued into an empty Redis-backed buffer under an `ltrim` failure ends up
counted twice. -/
theorem claim4_counterexample :
    itemCount (⟨true, true, [], []⟩ : BufState Nat) ⟨7, none, ['e'], 0⟩ = 0 ∧
    addToBufferR 5 (⟨true, true, [], []⟩ : BufState Nat) ⟨7, none, ['e'], 0⟩ ⟨false, true⟩
      = ⟨true, true, [⟨7, none, ['e'], 0⟩], [⟨7, none, ['e'], 0⟩]⟩ ∧
    itemCount
      (addToBufferR 5 (⟨true, true, [], []⟩ : BufState Nat) ⟨7, none, ['e'], 0⟩ ⟨false, true⟩)
      ⟨7, none, ['e'], 0⟩ = 2 := by
  refine ⟨rfl, rfl, rfl⟩

/-- Claim C4 (amended): when the durable backend is active, a store failure
during enqueue or drain propagates no exception (both operations are total
functions of the injected faults) and never loses the item: a failed
`rpush` falls back to appending that single item to the in-memory queue,
leaving the Redis list untouched and the authoritative-backend flag
unflipped; a failed drain — whether the `lrange` read throws or the `del`
that follows a successful nonempty read throws — falls back to draining
the in-memory path, leaving the Redis list untouched.  A single enqueue
never duplicates the
item across the two paths **unless** the failure strikes the `ltrim` step
after a successful `rpush`, in which case that enqueue leaves a copy in
both paths. -/
theorem claim4_enqueue_fallback [DecidableEq α] (max : Nat) (hmax : 1 ≤ max)
    (st : BufState α) (it : Item α) (f : EnqFaults)
    (hfresh : itemCount st it = 0) :
    (addToBufferR max st it f).useRedis = st.useRedis ∧
    (addToBufferR max st it f).redisConn = st.redisConn ∧
    1 ≤ itemCount (addToBufferR max st it f) it ∧
    (f.rpushFails = true →
        (addToBufferR max st it f).redisList = st.redisList ∧
        (addToBufferR max st it f).memory = addToBuffer max st.memory it) ∧
    (¬(st.useRedis = true ∧ st.redisConn = true ∧ f.rpushFails = false ∧ f.ltrimFails = true) →
        itemCount (addToBufferR max st it f) it = 1) ∧
    (∀ fd : DrainFaults,
        fd.lrangeFails = true ∨ (st.redisList ≠ [] ∧ fd.delFails = true) →
        drainStep st fd = (st.memory, { st with memory := [] })) := by
  have hfresh' : st.redisList.count it + st.memory.count it = 0 := by
    simpa [itemCount] using hfresh
  have hredis0 : st.redisList.count it = 0 := by omega
  have hmem0 : st.memory.count it = 0 := by omega
  have hone : ([it] : List (Item α)).count it = 1 := by simp
  have hmemCount : (addToBuffer max st.memory it).count it = 1 := by
    by_cases hfull : max ≤ st.memory.length
    · have hle := count_drop_le st.memory 1 it
      simp only [addToBuffer, hfull, if_pos, ite_true, List.count_append, hone]
      omega
    · simp only [addToBuffer, hfull, if_neg, ite_false, List.count_append, hone, hmem0]
  have hdrain : ∀ fd : DrainFaults,
      fd.lrangeFails = true ∨ (st.redisList ≠ [] ∧ fd.delFails = true) →
      drainStep st fd = (st.memory, { st with memory := [] }) := by
    intro fd hfd
    by_cases hr : st.useRedis && st.redisConn
    · rcases hfd with hfd | ⟨hne, hfd⟩
      · simp [drainStep, hr, hfd]
      · by_cases hl : fd.lrangeFails
        · simp [drainStep, hr, hl]
        · have hni : ¬ st.redisList.isEmpty = true := by
            simpa [List.isEmpty_iff] using hne
          simp [drainStep, hr, hl, hni, hfd]
    · simp [drainStep, hr]
  by_cases hr : st.useRedis && st.redisConn
  · have hru : st.useRedis = true := (Bool.and_eq_true_iff.mp hr).1
    have hrc : st.redisConn = true := (Bool.and_eq_true_iff.mp hr).2
    by_cases hp : f.rpushFails
    · have hstep : addToBufferR max st it f = memPush max st it := by
        simp [addToBufferR, hr, redisEnqueuePath, hp]
      refine ⟨by simp [hstep, memPush], by simp [hstep, memPush], ?_, ?_, ?_, ?_⟩
      · simp [hstep, memPush, itemCount, hmemCount, hredis0]
      · intro _
        exact ⟨by simp [hstep, memPush], by simp [hstep, memPush]⟩
      · intro _
        simp [hstep, memPush, itemCount, hmemCount, hredis0]
      · exact hdrain
    · by_cases ht : f.ltrimFails
      · have hstep : addToBufferR max st it f
            = memPush max { st with redisList := st.redisList ++ [it] } it := by
          simp [addToBufferR, hr, redisEnqueuePath, hp, ht]
        have hcount2 : itemCount (addToBufferR max st it f) it = 2 := by
          rw [hstep]
          simp only [memPush, itemCount, List.count_append, hone, hredis0, hmemCount]
        refine ⟨by simp [hstep, memPush], by simp [hstep, memPush], by omega, ?_, ?_, ?_⟩
        · intro hc
          exact absurd hc hp
        · intro hc
          exact absurd ⟨hru, hrc, by simpa using hp, ht⟩ hc
        · exact hdrain
      · have hstep : addToBufferR max st it f
            = { st with redisList := lastN max (st.redisList ++ [it]) } := by
          simp [addToBufferR, hr, redisEnqueuePath, hp, ht]
        have hcnt : (lastN max (st.redisList ++ [it])).count it = 1 := by
          have hk : (st.redisList ++ [it]).length - max ≤ st.redisList.length := by
            simp only [List.length_append, List.length_singleton]
            omega
          have hsplit : lastN max (st.redisList ++ [it])
              = st.redisList.drop ((st.redisList ++ [it]).length - max) ++ [it] := by
            simp only [lastN]
            rw [List.drop_append_of_le_length hk]
          have hle := count_drop_le st.redisList ((st.redisList ++ [it]).length - max) it
          rw [hsplit, List.count_append, hone]
          omega
        have hcount1 : itemCount (addToBufferR max st it f) it = 1 := by
          rw [hstep]
          simp only [itemCount, hcnt, hmem0]
        refine ⟨by simp [hstep], by simp [hstep], by omega, ?_, ?_, ?_⟩
        · intro hc
          exact absurd hc hp
        · intro _
          exact hcount1
        · exact hdrain
  · have hstep : addToBufferR max st it f = memPush max st it := by
      simp [addToBufferR, hr]
    refine ⟨by simp [hstep, memPush], by simp [hstep, memPush], ?_, ?_, ?_, ?_⟩
    · simp [hstep, memPush, itemCount, hmemCount, hredis0]
    · intro _
      exact ⟨by simp [hstep, memPush], by simp [hstep, memPush]⟩
    · intro _
      simp [hstep, memPush, itemCount, hmemCount, hredis0]
    · exact hdrain

/-- Claim C4 (amended) witness: a fresh item under a failed `rpush` on a
connected Redis backend lands exactly once, in the in-memory queue, without
flipping the backend. -/
theorem claim4_enqueue_fallback_witness :
    (1 ≤ 5 ∧ itemCount (⟨true, true, [⟨1, none, ['e'], 0⟩], []⟩ : BufState Nat)
        ⟨7, none, ['e'], 9⟩ = 0) ∧
    (addToBufferR 5 (⟨true, true, [⟨1, none, ['e'], 0⟩], []⟩ : BufState Nat)
        ⟨7, none, ['e'], 9⟩ ⟨true, false⟩).useRedis
      = (⟨true, true, [⟨1, none, ['e'], 0⟩], []⟩ : BufState Nat).useRedis ∧
    (addToBufferR 5 (⟨true, true, [⟨1, none, ['e'], 0⟩], []⟩ : BufState Nat)
        ⟨7, none, ['e'], 9⟩ ⟨true, false⟩).redisConn
      = (⟨true, true, [⟨1, none, ['e'], 0⟩], []⟩ : BufState Nat).redisConn ∧
    1 ≤ itemCount (addToBufferR 5 (⟨true, true, [⟨1, none, ['e'], 0⟩], []⟩ : BufState Nat)
        ⟨7, none, ['e'], 9⟩ ⟨true, false⟩) ⟨7, none, ['e'], 9⟩ ∧
    ((⟨true, false⟩ : EnqFaults).rpushFails = true →
        (addToBufferR 5 (⟨true, true, [⟨1, none, ['e'], 0⟩], []⟩ : BufState Nat)
            ⟨7, none, ['e'], 9⟩ ⟨true, false⟩).redisList
          = (⟨true, true, [⟨1, none, ['e'], 0⟩], []⟩ : BufState Nat).redisList ∧
        (addToBufferR 5 (⟨true, true, [⟨1, none, ['e'], 0⟩], []⟩ : BufState Nat)
            ⟨7, none, ['e'], 9⟩ ⟨true, false⟩).memory
          = addToBuffer 5 (⟨true, true, [⟨1, none, ['e'], 0⟩], []⟩ : BufState Nat).memory
              ⟨7, none, ['e'], 9⟩) ∧
    (¬((⟨true, true, [⟨1, none, ['e'], 0⟩], []⟩ : BufState Nat).useRedis = true ∧
        (⟨true, true, [⟨1, none, ['e'], 0⟩], []⟩ : BufState Nat).redisConn = true ∧
        (⟨true, false⟩ : EnqFaults).rpushFails = false ∧
        (⟨true, false⟩ : EnqFaults).ltrimFails = true) →
      itemCount (addToBufferR 5 (⟨true, true, [⟨1, none, ['e'], 0⟩], []⟩ : BufState Nat)
          ⟨7, none, ['e'], 9⟩ ⟨true, false⟩) ⟨7, none, ['e'], 9⟩ = 1) ∧
    (∀ fd : DrainFaults,
        fd.lrangeFails = true ∨
          ((⟨true, true, [⟨1, none, ['e'], 0⟩], []⟩ : BufState Nat).redisList ≠ [] ∧
            fd.delFails = true) →
        drainStep (⟨true, true, [⟨1, none, ['e'], 0⟩], []⟩ : BufState Nat) fd
          = ((⟨true, true, [⟨1, none, ['e'], 0⟩], []⟩ : BufState Nat).memory,
             { (⟨true, true, [⟨1, none, ['e'], 0⟩], []⟩ : BufState Nat) with memory := [] })) :=
  ⟨⟨by decide, by decide⟩,
    claim4_enqueue_fallback 5 (by decide) _ _ ⟨true, false⟩ (by decide)⟩

/-! ## Truthiness helpers

JS `||` chains and `if (x)` guards treat the empty string, `null` and
`undefined` as falsy; a missing value is `none` and an empty string is
`some []`. -/

/-- A string value as a truthy option: `none` for absent/`null`/`''`. -/
def truthyOpt : Option Str → Option Str
  | none => none
  | some s => if s = [] then none else some s

/-- A JS `a || b || ...` chain over string values: the first truthy one. -/
def firstTruthy : List (Option Str) → Option Str
  | [] => none
  | o :: rest =>
    match truthyOpt o with
    | some v => some v
    | none => firstTruthy rest

/-! ## Session Gatekeeper (src/realtime/socket.js lines 13–26)

```js
io.of('/realtime').use((socket, next) => {
  try {
    const token = socket.handshake.auth?.token
      || socket.handshake.headers['authorization']?.replace('Bearer ', '')
    socket.data.user = null
    socket.data.token = token || null
    if (token && config.jwtSecret) {
      const payload = jwt.verify(token, config.jwtSecret)
      socket.data.user = { id: payload?.sub || payload?.userId || payload?.id }
    }
    next()
  } catch (e) {
    next()
  }
})
```
`jwt.verify` throws on any verification failure; it is injected as a
function returning `Except Unit JwtPayload`. -/

/-- The claims a decoded JWT may carry for identity derivation. -/
structure JwtPayload where
  sub : Option Str
  userId : Option Str
  id : Option Str
deriving DecidableEq

/-- `String.prototype.replace(pat, '')`: delete the first occurrence of
`pat` (here always `'Bearer '`). -/
def replaceOnce (pat : Str) : Str → Str
  | [] => []
  | c :: rest =>
    if pat.isPrefixOf (c :: rest) then (c :: rest).drop pat.length
    else c :: replaceOnce pat rest

/-- The token extraction chain
`auth?.token || headers['authorization']?.replace('Bearer ', '')`,
as a truthy option (`socket.data.token = token || null`). -/
def extractToken (authToken : Option Str) (headerAuth : Option Str) : Option Str :=
  match truthyOpt authToken with
  | some t => some t
  | none =>
    match headerAuth with
    | some h => truthyOpt (some (replaceOnce "Bearer ".toList h))
    | none => none

/-- What the gatekeeper leaves on the session: the derived identity (with
its possibly-absent subject id), the stored token, and whether `next()` was
called to let the connection proceed. -/
structure AuthOutcome where
  user : Option (Option Str)
  token : Option Str
  proceeded : Bool
deriving DecidableEq

/-- The body of the middleware's `try` block after the two `socket.data`
assignments; `jwt.verify` may throw (`Except.error`). -/
def authMiddlewareTry (authToken headerAuth secret : Option Str)
    (verify : Str → Str → Except Unit JwtPayload) : Except Unit (Option (Option Str)) :=
  match extractToken authToken headerAuth, truthyOpt secret with
  | some t, some s =>
    match verify t s with
    | .ok payload => .ok (some (firstTruthy [payload.sub, payload.userId, payload.id]))
    | .error e => .error e
  | _, _ => .ok none

/-- The Session Gatekeeper middleware: on a caught exception the session
keeps the already-assigned `user = null` and stored token, and `next()` is
still called. -/
def authMiddleware (authToken headerAuth secret : Option Str)
    (verify : Str → Str → Except Unit JwtPayload) : AuthOutcome :=
  let token := extractToken authToken headerAuth
  match authMiddlewareTry authToken headerAuth secret verify with
  | .ok u => ⟨u, token, true⟩
  | .error _ => ⟨none, token, true⟩

/-- Claim C9: the Session Gatekeeper never rejects a connection — `next()`
is called on every input.  When a credential is present, a signing secret
is configured and verification succeeds, the derived subject id
(`sub || userId || id`) is attached; when the credential or secret is
absent, or verification throws, the connection proceeds with a null
identity. -/
theorem claim9_gatekeeper_never_rejects (authToken headerAuth secret : Option Str)
    (verify : Str → Str → Except Unit JwtPayload) :
    (authMiddleware authToken headerAuth secret verify).proceeded = true ∧
    (∀ t s payload, extractToken authToken headerAuth = some t →
        truthyOpt secret = some s → verify t s = .ok payload →
        (authMiddleware authToken headerAuth secret verify).user
          = some (firstTruthy [payload.sub, payload.userId, payload.id])) ∧
    (extractToken authToken headerAuth = none →
        (authMiddleware authToken headerAuth secret verify).user = none) ∧
    (truthyOpt secret = none →
        (authMiddleware authToken headerAuth secret verify).user = none) ∧
    (∀ t s, extractToken authToken headerAuth = some t → truthyOpt secret = some s →
        verify t s = .error () →
        (authMiddleware authToken headerAuth secret verify).user = none) := by
  refine ⟨?_, ?_, ?_, ?_, ?_⟩
  · unfold authMiddleware
    cases authMiddlewareTry authToken headerAuth secret verify <;> rfl
  · intro t s payload ht hs hv
    simp [authMiddleware, authMiddlewareTry, ht, hs, hv]
  · intro ht
    simp [authMiddleware, authMiddlewareTry, ht]
  · intro hs
    unfold authMiddleware authMiddlewareTry
    rw [hs]
    cases extractToken authToken headerAuth <;> rfl
  · intro t s ht hs hv
    simp [authMiddleware, authMiddlewareTry, ht, hs, hv]

/-- Claim C9 witness: with a verifying credential the identity is attached;
the hypothesis-laden conjuncts are discharged at concrete inputs. -/
theorem claim9_gatekeeper_never_rejects_witness :
    (authMiddleware (some ['t']) none (some ['s'])
        (fun _ _ => .ok ⟨some ['u'], none, none⟩)).proceeded = true ∧
    (authMiddleware (some ['t']) none (some ['s'])
        (fun _ _ => .ok ⟨some ['u'], none, none⟩)).user
      = some (firstTruthy [some ['u'], none, none]) := by
  have h := claim9_gatekeeper_never_rejects (some ['t']) none (some ['s'])
    (fun _ _ => .ok ⟨some ['u'], none, none⟩)
  exact ⟨h.1, h.2.1 ['t'] ['s'] ⟨some ['u'], none, none⟩ (by decide) (by decide) rfl⟩

/-! ## Presence registry and disconnect (src/realtime/socket.js lines 311–321)

```js
socket.on('disconnect', () => {
  const room = socket.data.room
  if (!room) return
  const participants = roomParticipants.get(room)
  if (!participants) return
  if (participants.has(socket.id)) {
    participants.delete(socket.id)
    console.log(...)
    socket.broadcast.to(room).emit('presence:left', { clientId: socket.id })
  }
})
```
Participant records are opaque here (only key membership matters to the
handler), so the registry is parametric in the record type `π`. -/

/-- A notice relayed to room peers when a participant record is removed. -/
inductive LeaveEmit where
  | presenceLeft (room : Str) (clientId : Str)
deriving DecidableEq

/-- The disconnect handler acting on `roomParticipants`. -/
def disconnectHandler (reg : List (Str × List (Str × π))) (sessRoom : Option Str)
    (cid : Str) : List (Str × List (Str × π)) × List LeaveEmit :=
  match sessRoom with
  | none => (reg, [])
  | some room =>
    match mapGet reg room with
    | none => (reg, [])
    | some parts =>
      if (mapGet parts cid).isSome then
        (mapSet reg room (mapDelete parts cid), [.presenceLeft room cid])
      else (reg, [])

/-- The record the disconnect handler would act on, if any. -/
def findParticipant (reg : List (Str × List (Str × π))) (sessRoom : Option Str)
    (cid : Str) : Option π :=
  match sessRoom with
  | none => none
  | some room =>
    match mapGet reg room with
    | none => none
    | some parts => mapGet parts cid

/-- Claim C8: a disconnect for a clientId with no existing participant
record is a no-op — the registry is unchanged and no `presence:left` notice
is emitted; when a record exists, exactly one `presence:left` notice is
relayed, the record is removed, and every other participant's record is
untouched. -/
theorem claim8_leave_noop_or_notice (reg : List (Str × List (Str × π)))
    (sessRoom : Option Str) (cid : Str) :
    (findParticipant reg sessRoom cid = none →
        disconnectHandler reg sessRoom cid = (reg, [])) ∧
    (∀ room parts p, sessRoom = some room → mapGet reg room = some parts →
        mapGet parts cid = some p →
        disconnectHandler reg sessRoom cid
          = (mapSet reg room (mapDelete parts cid), [.presenceLeft room cid]) ∧
        mapGet (mapDelete parts cid) cid = none ∧
        ∀ c, c ≠ cid → mapGet (mapDelete parts cid) c = mapGet parts c) := by
  constructor
  · intro hnone
    match hs : sessRoom with
    | none => rfl
    | some room =>
      simp only [findParticipant, hs] at hnone
      match hreg : mapGet reg room with
      | none => simp [disconnectHandler, hreg]
      | some parts =>
        rw [hreg] at hnone
        have hcid : mapGet parts cid = none := hnone
        simp [disconnectHandler, hreg, hcid]
  · intro room parts p hs hreg hp
    subst hs
    refine ⟨?_, mapGet_mapDelete_self parts cid, fun c hc => mapGet_mapDelete_ne parts cid c hc⟩
    simp [disconnectHandler, hreg, hp]

/-- Claim C8 witness: in a one-room registry, disconnecting an unknown
clientId changes nothing, and disconnecting a present one removes exactly
its record and emits one `presence:left`. -/
theorem claim8_leave_noop_or_notice_witness :
    (findParticipant ([(['r'], [(['a'], 1)])] : List (Str × List (Str × Nat)))
        (some ['r']) ['z'] = none →
      disconnectHandler ([(['r'], [(['a'], 1)])] : List (Str × List (Str × Nat)))
        (some ['r']) ['z'] = ([(['r'], [(['a'], 1)])], [])) ∧
    (∀ room parts p, (some ['r'] : Option Str) = some room →
        mapGet ([(['r'], [(['a'], 1)])] : List (Str × List (Str × Nat))) room = some parts →
        mapGet parts ['a'] = some p →
        disconnectHandler ([(['r'], [(['a'], 1)])] : List (Str × List (Str × Nat)))
            (some ['r']) ['a']
          = (mapSet [(['r'], [(['a'], 1)])] room (mapDelete parts ['a']),
             [.presenceLeft room ['a']]) ∧
        mapGet (mapDelete parts ['a']) ['a'] = none ∧
        ∀ c, c ≠ ['a'] → mapGet (mapDelete parts ['a']) c = mapGet parts c) :=
  ⟨(claim8_leave_noop_or_notice [(['r'], [(['a'], 1)])] (some ['r']) ['z']).1,
   (claim8_leave_noop_or_notice [(['r'], [(['a'], 1)])] (some ['r']) ['a']).2⟩

/-! ## `mindmap:join` handler (src/realtime/socket.js lines 36–83)

```js
socket.on('mindmap:join', async (payload) => {
  try {
    const { mindmapId, shareToken } = payload || {}
    let room = null, canEdit = false, ok = false
    if (config.backendUrl) {
      if (shareToken) {
        const res = await fetch(`.../mindmaps/public/{shareToken}`)
        ok = res.ok
        if (ok) { const data = await res.json()
          room = `mindmap:{data.id}`; canEdit = data.publicAccessLevel === 'edit'
          socket.data.mindmapId = data.id; socket.data.shareToken = shareToken }
      } else if (mindmapId) {
        const res = await fetch(`.../mindmaps/{mindmapId}`, { headers })
        ok = res.ok
        if (ok) { const data = await res.json()
          room = `mindmap:{data.id}`; canEdit = true
          socket.data.mindmapId = data.id; socket.data.shareToken = null }
      }
    }
    if (!room) { console.log(...) ; return }
    socket.join(room); socket.data.room = room; socket.data.canEdit = canEdit
    socket.emit('mindmap:joined', { room, canEdit })
    const participants = roomParticipants.get(room) || new Map()
    roomParticipants.set(room, participants)
    const snapshot = Array.from(participants.values())
    socket.emit('presence:state', snapshot)
  } catch (err) { console.log(...) }
})
```
A failed or unreachable backend call (non-2xx `res.ok`, a thrown `fetch`,
or a thrown `res.json()`) is modelled as an absent lookup result; in every
such case no session field has been assigned yet, so the `catch`/early
`return` leave the session untouched. -/

/-- The fields of the join payload (`payload || {}` destructuring);
truthiness of each field decides the path taken. -/
structure JoinPayload where
  mindmapId : Option Str
  shareToken : Option Str
deriving DecidableEq

/-- A successful `GET /mindmaps/public/{shareToken}` response body. -/
structure PublicDoc where
  id : Str
  publicAccessLevel : Str
deriving DecidableEq

/-- The injected backend responses for the two lookup routes; `none` covers
a non-ok status and a thrown fetch/json alike. -/
structure JoinBackend where
  publicRes : Option PublicDoc
  privateRes : Option Str
deriving DecidableEq

/-- The join-relevant session fields (`socket.data`) and the rooms the
socket has joined.  `none`/`false` mirror the initially-unset JS fields. -/
structure SessionState where
  room : Option Str
  canEdit : Bool
  mindmapId : Option Str
  shareToken : Option Str
  joinedRooms : List Str
deriving DecidableEq

/-- Events the join handler can emit back to the joining socket. -/
inductive JoinEmit (π : Type) where
  | joined (room : Str) (canEdit : Bool)
  | presenceState (snapshot : List π)
deriving DecidableEq

/-- The `mindmap:join` handler.  Returns the session state, the
participant registry and the emitted events. -/
def joinHandler (hasBackend : Bool) (be : JoinBackend)
    (reg : List (Str × List (Str × π))) (st : SessionState)
    (payload : Option JoinPayload) :
    SessionState × List (Str × List (Str × π)) × List (JoinEmit π) :=
  let shareToken := truthyOpt (payload.bind JoinPayload.shareToken)
  let mindmapId := truthyOpt (payload.bind JoinPayload.mindmapId)
  let resolved : Option (Str × Bool × Option Str) :=
    if hasBackend then
      match shareToken with
      | some tok =>
        match be.publicRes with
        | some doc => some (doc.id, doc.publicAccessLevel = "edit".toList, some tok)
        | none => none
      | none =>
        match mindmapId with
        | some _ =>
          match be.privateRes with
          | some did => some (did, true, none)
          | none => none
        | none => none
    else none
  match resolved with
  | none => (st, reg, [])
  | some (did, ce, stok) =>
    let room := "mindmap:".toList ++ did
    let participants := (mapGet reg room).getD []
    ({ room := some room, canEdit := ce, mindmapId := some did, shareToken := stok,
       joinedRooms := st.joinedRooms ++ [room] },
     mapSet reg room participants,
     [.joined room ce, .presenceState (participants.map Prod.snd)])

/-- Claim C6: when the backend lookup fails for every route — invalid or
expired share token, unknown document id, unreachable backend (`none`
responses), or no backend configured — the join is refused silently: no
`mindmap:joined` and no `presence:state` are emitted (no events at all),
the socket joins no room, the registry is untouched, and the session's
room/canEdit state is unchanged; the connection stays usable, and a
subsequent join attempt whose share-token lookup succeeds emits
`mindmap:joined` and the presence snapshot and assigns the room. -/
theorem claim6_failed_join_silent (hasBackend : Bool) (be : JoinBackend)
    (reg : List (Str × List (Str × π))) (st : SessionState) (payload : Option JoinPayload)
    (hpub : be.publicRes = none) (hpriv : be.privateRes = none) :
    joinHandler hasBackend be reg st payload = (st, reg, []) ∧
    (∀ be2 : JoinBackend, ∀ doc : PublicDoc, ∀ tok : Str, be2.publicRes = some doc →
        tok ≠ [] →
        (joinHandler true be2 reg st (some ⟨none, some tok⟩)).1.room
            = some ("mindmap:".toList ++ doc.id) ∧
        (joinHandler true be2 reg st (some ⟨none, some tok⟩)).2.2
            = [.joined ("mindmap:".toList ++ doc.id) (doc.publicAccessLevel = "edit".toList),
               .presenceState ((((mapGet reg ("mindmap:".toList ++ doc.id)).getD []).map
                  Prod.snd : List π))]) := by
  constructor
  · by_cases hb : hasBackend
    · cases htok : truthyOpt (payload.bind JoinPayload.shareToken) with
      | some tok => simp [joinHandler, hb, htok, hpub]
      | none =>
        cases hmid : truthyOpt (payload.bind JoinPayload.mindmapId) with
        | some mid => simp [joinHandler, hb, htok, hmid, hpriv]
        | none => simp [joinHandler, hb, htok, hmid]
    · simp [joinHandler, hb]
  · intro be2 doc tok hdoc htok
    have htt : truthyOpt (some tok) = some tok := by
      simp [truthyOpt, htok]
    constructor
    · simp [joinHandler, htt, hdoc]
    · simp [joinHandler, htt, hdoc]

/-- Claim C6 witness: with both lookups failing, a concrete join request is
a complete no-op, and a later successful public lookup joins the room. -/
theorem claim6_failed_join_silent_witness :
    ((⟨none, none⟩ : JoinBackend).publicRes = none ∧
      (⟨none, none⟩ : JoinBackend).privateRes = none) ∧
    (joinHandler true ⟨none, none⟩ ([] : List (Str × List (Str × Nat)))
        ⟨none, false, none, none, []⟩ (some ⟨none, some ['t']⟩)
      = (⟨none, false, none, none, []⟩, [], []) ∧
    (∀ be2 : JoinBackend, ∀ doc : PublicDoc, ∀ tok : Str, be2.publicRes = some doc →
        tok ≠ [] →
        (joinHandler true be2 ([] : List (Str × List (Str × Nat)))
            ⟨none, false, none, none, []⟩ (some ⟨none, some tok⟩)).1.room
            = some ("mindmap:".toList ++ doc.id) ∧
        (joinHandler true be2 ([] : List (Str × List (Str × Nat)))
            ⟨none, false, none, none, []⟩ (some ⟨none, some tok⟩)).2.2
            = [.joined ("mindmap:".toList ++ doc.id) (doc.publicAccessLevel = "edit".toList),
               .presenceState ((((mapGet ([] : List (Str × List (Str × Nat)))
                  ("mindmap:".toList ++ doc.id)).getD []).map Prod.snd : List Nat))])) :=
  ⟨⟨rfl, rfl⟩,
    claim6_failed_join_silent true ⟨none, none⟩ [] ⟨none, false, none, none, []⟩
      (some ⟨none, some ['t']⟩) rfl rfl⟩

/-! ## Drag coalescing (src/realtime/socket.js lines 207–234)

```js
const dragStateByRoom = new Map()
socket.on('mindmap:nodes:change', (room, changes) => {
  socket.broadcast.to(room).emit('mindmap:nodes:change', changes)
  try {
    if (!room || !Array.isArray(changes)) return
    const trackers = dragStateByRoom.get(room) || new Map()
    dragStateByRoom.set(room, trackers)
    for (const ch of changes) {
      const isPos = ch && ch.type === 'position'
      const id = ch && ch.id
      const pos = ch && ch.position
      const dragging = ch && hasOwnProperty(ch, 'dragging') ? ch.dragging === true : undefined
      if (!isPos || !id || !pos || typeof pos.x !== 'number' || typeof pos.y !== 'number') continue
      const prev = trackers.get(id) || { start: null, last: null }
      if (!prev.start) prev.start = { x: pos.x, y: pos.y }
      prev.last = { x: pos.x, y: pos.y }
      trackers.set(id, prev)
      if (dragging === false) {
        const t = trackers.get(id)
        if (t && t.start && t.last && (t.start.x !== t.last.x || t.start.y !== t.last.y)) {
          logHistory('node_update', { id, from: t.start, to: t.last })
        }
        trackers.delete(id)
      }
    }
  } catch (_) {}
})
```
Positions are compared only for (in)equality, so the JS numbers are
modelled as `Int × Int`.  The per-room tracker map is threaded explicitly;
frames of one gesture all arrive on the dragging client's connection and
room, whether in one `changes` array or split across events, so a gesture
is a list of change objects folded through the loop body. -/

/-- A screen position. -/
abbrev Point := Int × Int

/-- One element of the `changes` array.  `id = none` models a missing or
falsy (`''`) id, `position = none` a missing position or non-numeric
coordinates, `dragging = none` an absent `dragging` property and
`dragging = some b` a present one with `b = (ch.dragging === true)`. -/
structure NodeChange where
  ctype : Str
  id : Option Str
  position : Option Point
  dragging : Option Bool
deriving DecidableEq

/-- The per-element drag tracker `{ start, last }`. -/
structure Tracker where
  start : Option Point
  last : Option Point
deriving DecidableEq

/-- The audit-record request passed to `logHistory('node_update', ...)` at
gesture end. -/
structure AuditReq where
  nodeId : Str
  fromPos : Point
  toPos : Point
deriving DecidableEq

/-- The loop body for one change object: returns the updated trackers and
the `logHistory` requests it issues (zero or one). -/
def stepChange (trackers : List (Str × Tracker)) (ch : NodeChange) :
    List (Str × Tracker) × List AuditReq :=
  if ch.ctype = "position".toList then
    match ch.id, ch.position with
    | some i, some pos =>
      let prev := (mapGet trackers i).getD ⟨none, none⟩
      let start := prev.start.getD pos
      let tr : Tracker := ⟨some start, some pos⟩
      let trackers1 := mapSet trackers i tr
      if ch.dragging = some false then
        (mapDelete trackers1 i,
         if start ≠ pos then [⟨i, start, pos⟩] else [])
      else (trackers1, [])
    | _, _ => (trackers, [])
  else (trackers, [])

/-- Folding the loop over a whole frame sequence, accumulating requests. -/
def processChanges (trackers : List (Str × Tracker)) :
    List NodeChange → List (Str × Tracker) × List AuditReq
  | [] => (trackers, [])
  | ch :: rest =>
    let r := stepChange trackers ch
    let r2 := processChanges r.1 rest
    (r2.1, r.2 ++ r2.2)

/-- A valid position frame for element `i` (type `'position'`, truthy id,
numeric position), with dragging flag `d`. -/
def posChange (i : Str) (p : Point) (d : Option Bool) : NodeChange :=
  ⟨"position".toList, some i, some p, d⟩

/-- A drag gesture delivered to the handler: intermediate position frames
(with their dragging flags), then a final frame whose dragging flag is
`false`. -/
def dragFrames (i : Str) (ps : List (Point × Option Bool)) (q : Point) : List NodeChange :=
  ps.map (fun pd => posChange i pd.1 pd.2) ++ [posChange i q (some false)]

theorem processChanges_drag_go (i : Str) (q : Point) :
    ∀ (ps : List (Point × Option Bool)) (s l : Point),
      (∀ pd ∈ ps, pd.2 ≠ some false) →
      processChanges [(i, ⟨some s, some l⟩)] (dragFrames i ps q)
        = ([], if s ≠ q then [⟨i, s, q⟩] else []) := by
  intro ps
  induction ps with
  | nil =>
    intro s l _
    simp [dragFrames, processChanges, stepChange, posChange, mapGet, mapSet, mapDelete]
  | cons pd rest ih =>
    intro s l hmid
    have hd : pd.2 ≠ some false := hmid pd (List.mem_cons_self pd rest)
    have hstep : stepChange [(i, ⟨some s, some l⟩)] (posChange i pd.1 pd.2)
        = ([(i, ⟨some s, some pd.1⟩)], []) := by
      simp [stepChange, posChange, mapGet, mapSet, hd]
    have hrest := ih s pd.1 (fun x hx => hmid x (List.mem_cons_of_mem pd hx))
    simp only [dragFrames, List.map_cons, List.cons_append, processChanges, hstep, List.append_eq]
    simp only [dragFrames] at hrest
    rw [hrest]
    simp

/-- Claim C3: a drag gesture — a sequence of valid position frames for one
element id, none of whose intermediate frames has `dragging === false`,
ending with a frame whose dragging flag is false — produces exactly one
audit record, carrying the net displacement from the first tracked position
to the final position, and none if they are equal; intermediate frames
produce no record, and the tracker for the element is gone afterwards. -/
theorem claim3_drag_coalescing (i : Str) (ps : List (Point × Option Bool)) (q : Point)
    (hmid : ∀ pd ∈ ps, pd.2 ≠ some false) :
    (processChanges [] (dragFrames i ps q)).2
      = (if (ps.headD (q, none)).1 ≠ q then [⟨i, (ps.headD (q, none)).1, q⟩] else []) ∧
    mapGet (processChanges [] (dragFrames i ps q)).1 i = none := by
  match ps, hmid with
  | [], _ =>
    constructor
    · simp [dragFrames, processChanges, stepChange, posChange, mapGet, mapSet, mapDelete]
    · simp [dragFrames, processChanges, stepChange, posChange, mapGet, mapSet, mapDelete]
  | pd :: rest, hmid =>
    have hd : pd.2 ≠ some false := hmid pd (List.mem_cons_self pd rest)
    have hstep : stepChange [] (posChange i pd.1 pd.2)
        = ([(i, ⟨some pd.1, some pd.1⟩)], []) := by
      simp [stepChange, posChange, mapGet, mapSet, hd]
    have hrest := processChanges_drag_go i q rest pd.1 pd.1
      (fun x hx => hmid x (List.mem_cons_of_mem pd hx))
    constructor
    · simp only [dragFrames, List.map_cons, List.cons_append, processChanges, hstep, List.append_eq]
      simp only [dragFrames] at hrest
      rw [hrest]
      simp
    · simp only [dragFrames, List.map_cons, List.cons_append, processChanges, hstep, List.append_eq]
      simp only [dragFrames] at hrest
      rw [hrest]
      simp [mapGet]

/-- Claim C3 witness: the spec scenario `p0 → p1 → p2 → (end)` — frames at
(0,0) and (1,1) dragging, ending at (2,3) — yields exactly one audit record
carrying the net displacement (0,0) → (2,3), and the tracker is consumed. -/
theorem claim3_drag_coalescing_witness :
    (∀ pd ∈ [((0, 0), some true), ((1, 1), some true)], pd.2 ≠ some false) ∧
    ((processChanges [] (dragFrames ['n']
        [((0, 0), some true), ((1, 1), some true)] (2, 3))).2
      = (if (([((0, 0), some true), ((1, 1), some true)] :
            List (Point × Option Bool)).headD ((2, 3), none)).1 ≠ (2, 3) then
          [⟨['n'], (([((0, 0), some true), ((1, 1), some true)] :
            List (Point × Option Bool)).headD ((2, 3), none)).1, (2, 3)⟩] else []) ∧
    mapGet (processChanges [] (dragFrames ['n']
        [((0, 0), some true), ((1, 1), some true)] (2, 3))).1 ['n'] = none) :=
  ⟨by decide,
    claim3_drag_coalescing ['n'] [((0, 0), some true), ((1, 1), some true)] (2, 3) (by decide)⟩

/-! ## `logHistory` and its throttle (src/realtime/socket.js lines 131–194)

```js
const lastLogAtByRoomAction = new Map()          // per connection!
const logHistory = async (action, changes, snapshot = null, status = 'active') => {
  try {
    if (!config.backendUrl) return
    if (!socket.data.room) return
    if (!socket.data.canEdit) return
    const allowed = String(action).startsWith('node_') || String(action).startsWith('edge_')
      || action === 'delete' || action === 'restore'
    if (!allowed) return
    const mindmapId = (socket.data.mindmapId) || (String(socket.data.room).split(':')[1])
    if (!mindmapId) return
    const key = `{socket.data.room}:{action}`
    const now = Date.now()
    const lastAt = lastLogAtByRoomAction.get(key) || 0
    const minInterval = (action === 'node_update' || action === 'edge_update') ? 1000 : 0
    if (minInterval > 0 && now - lastAt < minInterval) return
    ... POST /mindmaps/{mindmapId}/history ...
    if (res.ok) { lastLogAtByRoomAction.set(key, now); ... }
  } catch (e) { ... }
}
```
The model keeps the throttle map and returns whether the POST was
submitted at all.  The request body (changes, snapshot, metadata) does not
influence control flow and is omitted; `maybeGetSnapshot` only shapes the
body.  Note that `lastLogAtByRoomAction` is created inside the
`connection` handler, so each connection has its own map. -/

/-- `String.prototype.split(c)` for a single-character separator. -/
def splitOnChar (c : Char) : Str → List Str
  | [] => [[]]
  | x :: rest =>
    if x = c then [] :: splitOnChar c rest
    else
      match splitOnChar c rest with
      | [] => [[x]]
      | p :: ps => (x :: p) :: ps

/-- The `allowed` predicate on action kinds. -/
def allowedAction (a : Str) : Bool :=
  "node_".toList.isPrefixOf a || "edge_".toList.isPrefixOf a ||
    a == "delete".toList || a == "restore".toList

/-- `(socket.data.mindmapId) || (String(socket.data.room).split(':')[1])`
followed by the `if (!mindmapId) return` truthiness guard. -/
def resolveMindmapId (dataId : Option Str) (room : Str) : Option Str :=
  match truthyOpt dataId with
  | some v => some v
  | none => truthyOpt (splitOnChar ':' room)[1]?

/-- The session fields `logHistory` consults. -/
structure HistorySession where
  room : Option Str
  canEdit : Bool
  mindmapId : Option Str
deriving DecidableEq

/-- One `logHistory` invocation on one connection: takes that connection's
throttle map, the acting time (`Date.now()`) and the backend's response
(`res.ok`); returns the new throttle map and whether the POST was
submitted. -/
def logHistoryStep (hasBackend : Bool) (sess : HistorySession)
    (st : List (Str × Nat)) (action : Str) (now : Nat) (postOk : Bool) :
    List (Str × Nat) × Bool :=
  if hasBackend = false then (st, false)
  else
    match truthyOpt sess.room with
    | none => (st, false)
    | some room =>
      if sess.canEdit = false then (st, false)
      else if allowedAction action = false then (st, false)
      else
        match resolveMindmapId sess.mindmapId room with
        | none => (st, false)
        | some _ =>
          let key := room ++ ':' :: action
          let lastAt := (mapGet st key).getD 0
          let minInterval : Nat :=
            if action = "node_update".toList ∨ action = "edge_update".toList then 1000 else 0
          if 0 < minInterval ∧ now - lastAt < minInterval then (st, false)
          else if postOk then (mapSet st key now, true) else (st, true)

/-- Claim C5 counterexample: the claim quantifies the throttle over a
(room, action kind) pair, but `lastLogAtByRoomAction` is created inside the
`connection` handler, so its scope is one connection.  Two connections in
the same room with edit rights, each with its (fresh, empty) throttle map,
both submit a `node_update` audit record 400 ms apart: two submissions to
the backend for the same (room, action kind) inside the throttle window,
where the claim requires exactly one. -/
theorem claim5_counterexample :
    (logHistoryStep true ⟨some "mindmap:abc".toList, true, some "abc".toList⟩ []
        "node_update".toList 100000 true).2 = true ∧
    (logHistoryStep true ⟨some "mindmap:abc".toList, true, some "abc".toList⟩ []
        "node_update".toList 100400 true).2 = true ∧
    100400 - 100000 < 1000 := by
  refine ⟨by decide, by decide, by decide⟩

/-- Claim C5 (amended): per **connection**, for continuous action kinds
(`node_update`, `edge_update`) an audit submission for a given (room,
action kind) is suppressed whenever that connection's previous successful
submission for the same (room, action kind) was less than 1000 ms earlier;
so two mutation events of the same continuous kind for the same room on
the same connection within the window produce exactly one submission (the
first submits and records its time, the second is suppressed and leaves
the throttle map unchanged), while discrete allowed actions (`delete`,
`restore`, `node_add`, `edge_add`, ...) are never time-suppressed.  Across
distinct connections the throttle does not apply (see the
counterexample). -/
theorem claim5_throttle (room action mid : Str) (st : List (Str × Nat))
    (now1 now2 : Nat) (postOk2 : Bool)
    (hroom : room ≠ []) (hmid : mid ≠ [])
    (hact : action = "node_update".toList ∨ action = "edge_update".toList)
    (hfirst : ¬ now1 - (mapGet st (room ++ ':' :: action)).getD 0 < 1000)
    (hwin : now2 - now1 < 1000) :
    (logHistoryStep true ⟨some room, true, some mid⟩ st action now1 true).2 = true ∧
    (logHistoryStep true ⟨some room, true, some mid⟩ st action now1 true).1
      = mapSet st (room ++ ':' :: action) now1 ∧
    (logHistoryStep true ⟨some room, true, some mid⟩
        (mapSet st (room ++ ':' :: action) now1) action now2 postOk2).2 = false ∧
    (logHistoryStep true ⟨some room, true, some mid⟩
        (mapSet st (room ++ ':' :: action) now1) action now2 postOk2).1
      = mapSet st (room ++ ':' :: action) now1 ∧
    (∀ a : Str, allowedAction a = true →
        ¬(a = "node_update".toList ∨ a = "edge_update".toList) →
        ∀ st2 now pOk,
          (logHistoryStep true ⟨some room, true, some mid⟩ st2 a now pOk).2 = true) := by
  have htr : truthyOpt (some room) = some room := by simp [truthyOpt, hroom]
  have htm : truthyOpt (some mid) = some mid := by simp [truthyOpt, hmid]
  have hres : resolveMindmapId (some mid) room = some mid := by
    simp [resolveMindmapId, htm]
  have hallowed : allowedAction action = true := by
    rcases hact with h | h <;> subst h <;> decide
  have h1 : logHistoryStep true ⟨some room, true, some mid⟩ st action now1 true
      = (mapSet st (room ++ ':' :: action) now1, true) := by
    simp only [logHistoryStep, htr, hres, hallowed]
    rw [if_pos hact]
    simp [hfirst]
  have hget : (mapGet (mapSet st (room ++ ':' :: action) now1)
      (room ++ ':' :: action)).getD 0 = now1 := by
    rw [mapGet_mapSet]
    simp
  have h2 : logHistoryStep true ⟨some room, true, some mid⟩
      (mapSet st (room ++ ':' :: action) now1) action now2 postOk2
      = (mapSet st (room ++ ':' :: action) now1, false) := by
    simp only [logHistoryStep, htr, hres, hallowed]
    rw [if_pos hact, hget]
    simp [hwin]
  refine ⟨by rw [h1], by rw [h1], by rw [h2], by rw [h2], ?_⟩
  intro a ha hnotc st2 now pOk
  simp only [logHistoryStep, htr, hres, ha]
  rw [if_neg hnotc]
  simp only [Nat.lt_irrefl, false_and, if_false]
  cases pOk <;> simp

/-- Claim C5 (amended) witness: on one connection, a first `node_update`
submission at t=1000 and a second at t=1500 for the same room produce one
submission; and the discrete part at a concrete action. -/
theorem claim5_throttle_witness :
    ("mindmap:abc".toList ≠ ([] : Str) ∧ "abc".toList ≠ ([] : Str) ∧
      ("node_update".toList = "node_update".toList ∨
        "node_update".toList = "edge_update".toList) ∧
      ¬ ((1000 : Nat) - (mapGet ([] : List (Str × Nat))
          ("mindmap:abc".toList ++ ':' :: "node_update".toList)).getD 0 < 1000) ∧
      (1500 : Nat) - 1000 < 1000) ∧
    (logHistoryStep true ⟨some "mindmap:abc".toList, true, some "abc".toList⟩ []
        "node_update".toList 1000 true).2 = true ∧
    (logHistoryStep true ⟨some "mindmap:abc".toList, true, some "abc".toList⟩ []
        "node_update".toList 1000 true).1
      = mapSet [] ("mindmap:abc".toList ++ ':' :: "node_update".toList) 1000 ∧
    (logHistoryStep true ⟨some "mindmap:abc".toList, true, some "abc".toList⟩
        (mapSet [] ("mindmap:abc".toList ++ ':' :: "node_update".toList) 1000)
        "node_update".toList 1500 true).2 = false ∧
    (logHistoryStep true ⟨some "mindmap:abc".toList, true, some "abc".toList⟩
        (mapSet [] ("mindmap:abc".toList ++ ':' :: "node_update".toList) 1000)
        "node_update".toList 1500 true).1
      = mapSet [] ("mindmap:abc".toList ++ ':' :: "node_update".toList) 1000 ∧
    (∀ a : Str, allowedAction a = true →
        ¬(a = "node_update".toList ∨ a = "edge_update".toList) →
        ∀ st2 now pOk,
          (logHistoryStep true ⟨some "mindmap:abc".toList, true, some "abc".toList⟩
            st2 a now pOk).2 = true) :=
  ⟨⟨by decide, by decide, by decide, by decide, by decide⟩,
    claim5_throttle "mindmap:abc".toList "node_update".toList "abc".toList [] 1000 1500 true
      (by decide) (by decide) (by decide) (by decide) (by decide)⟩

end RiverFlow
